import Mathlib

/-
  Shallow embedding of the transaction-and-policy engine of the
  Banking-System-JS repository.

  Sources embedded:
    - src/src/utils/validators.js
    - src/src/services/transactionService.js
    - src/src/services/interestService.js   (modular backend copy)
    - src/src/services/securityService.js
    - src/unnamed/part_001                  (bundled browser copy of the engine)

  Modelling conventions (stated once here, referenced by the definitions):
    - Money amounts are exact rationals.  The source uses JS double-precision
      numbers; the spec declares floating-point precision out of scope, so the
      arithmetic of the engine is embedded exactly.  A JS amount argument is
      `Option Rat`: `none` models a non-number or NaN (both rejected by
      Number.isNaN / typeof checks), `some v` a finite number.
    - Wall-clock timestamps are an explicit `now : Int` parameter, the UTC
      epoch-millisecond value that `new Date()` would observe.  A stored
      transaction date (an ISO-8601 string in the source) is embedded as the
      parsed epoch-millisecond value `Option Int`; `none` models a string on
      which `new Date(s).getTime()` is NaN.
    - Mutation and exceptions: every mutating operation returns `JsResult`,
      either `ok` with the final state or `thrown` with the error message and
      the state at the moment of the throw (a JS exception leaves already
      applied mutations in place, so partial mutation before a throw is
      observable in the `thrown` state).
    - The lazy initialisations of the source (ensureTransactions, the status
      and statusHistory defaults) are embedded by making those fields total:
      `transactions` and `statusHistory` are always lists, so
      ensureTransactions is the identity; the absent/falsy `status` field is
      the empty string and the lazy default is written out where the source
      performs it.
-/

namespace Banking

/-- Transaction record, the tagged variant of transactionService.js.  The
field `counterparty` carries the source field named to of a TRANSFER_OUT
record and the source field named from of a TRANSFER_IN record (empty
otherwise); `penalty` is meaningful only on OVERDRAFT_ATTEMPT records and is
0 on every other record.  `date` is the parsed UTC epoch-millisecond value of
the stored ISO timestamp string, `none` when the string does not parse. -/
structure Txn where
  type : String
  amount : ℚ
  date : Option Int
  newBalance : ℚ
  penalty : ℚ := 0
  counterparty : String := ""
deriving DecidableEq, Repr

/-- Status-change record of securityService.js.  `changedBy` embeds the
source field named by, which is a Lean keyword. -/
structure StatusChange where
  action : String
  changedBy : String
  date : Option Int
deriving DecidableEq, Repr

/-- Bank account object.  `status := ""` models the absent (falsy) status
field of a freshly created account; firstName, lastName and createdAt are
omitted because no operation embedded here reads them. -/
structure Account where
  accountNumber : String
  balance : ℚ
  transactions : List Txn := []
  status : String := ""
  statusHistory : List StatusChange := []
deriving DecidableEq, Repr

/-- Result of a JS call on state σ: normal return with the final state, or an
exception carrying the message and the state at the moment of the throw. -/
inductive JsResult (σ : Type) where
  | ok (state : σ)
  | thrown (msg : String) (state : σ)
deriving DecidableEq, Repr

/-- The state a JS caller observes after the call, whether or not it threw:
an exception leaves already-applied mutations in place. -/
def JsResult.state {σ : Type} : JsResult σ → σ
  | .ok s => s
  | .thrown _ s => s

/-- Character-level uppercasing, embedding String.prototype.toUpperCase for
the ASCII strings the engine handles. -/
def jsToUpper (s : String) : String := ⟨s.data.map Char.toUpper⟩

/-- Whitespace test used by String.prototype.trim, restricted to the ASCII
whitespace that can occur in the embedded inputs. -/
def isJsWhitespace (c : Char) : Bool := c = ' ' ∨ c = '\t' ∨ c = '\n' ∨ c = '\r'

/-- Embedding of String.prototype.trim. -/
def jsTrim (s : String) : String :=
  ⟨((s.data.dropWhile isJsWhitespace).reverse.dropWhile isJsWhitespace).reverse⟩

/-- validators.js requireNonEmptyString: a non-string (`none`) throws, a
string that trims to empty throws, otherwise the trimmed string is
returned. -/
def requireNonEmptyString (value : Option String) (fieldName : String) :
    Except String String :=
  match value with
  | none => .error (fieldName ++ " must be a string.")
  | some s =>
    let trimmed := jsTrim s
    if trimmed = "" then .error (fieldName ++ " is required.")
    else .ok trimmed

/-- validators.js requirePositiveNumber: a non-number or NaN (`none`) throws,
a value at most zero throws, otherwise the value is returned. -/
def requirePositiveNumber (value : Option ℚ) (fieldName : String) :
    Except String ℚ :=
  match value with
  | none => .error (fieldName ++ " must be a number.")
  | some v =>
    if v ≤ 0 then .error (fieldName ++ " must be greater than zero.")
    else .ok v

/-- transactionService.js addDeposit: validate, push a DEPOSIT record with
newBalance balance+amount, then add the amount to the balance. -/
def addDeposit (account : Account) (amount : Option ℚ) (now : Int) :
    JsResult Account :=
  match requirePositiveNumber amount "Deposit amount" with
  | .error e => .thrown e account
  | .ok amount =>
    let transaction : Txn :=
      { type := "DEPOSIT", amount := amount, date := some now,
        newBalance := account.balance + amount }
    .ok { account with
          transactions := account.transactions ++ [transaction],
          balance := account.balance + amount }

/-- transactionService.js withdrawal: validate; if the amount exceeds the
balance, deduct the fixed penalty 5 and push an OVERDRAFT_ATTEMPT record
carrying the attempted amount, the penalty and the resulting balance;
otherwise deduct the amount and push a WITHDRAWAL record.  The source returns
the summary object of the post-state (accountNumber, balance, transactions),
which the returned account determines. -/
def withdrawal (account : Account) (amount : Option ℚ) (now : Int) :
    JsResult Account :=
  match requirePositiveNumber amount "Withdrawal amount" with
  | .error e => .thrown e account
  | .ok amount =>
    if account.balance < amount then
      let penalty : ℚ := 5
      let balance' := account.balance - penalty
      .ok { account with
            balance := balance',
            transactions := account.transactions ++
              [{ type := "OVERDRAFT_ATTEMPT", amount := amount,
                 date := some now, penalty := penalty,
                 newBalance := balance' }] }
    else
      let balance' := account.balance - amount
      .ok { account with
            balance := balance',
            transactions := account.transactions ++
              [{ type := "WITHDRAWAL", amount := amount, date := some now,
                 newBalance := balance' }] }

/-- transactionService.js transferMoney for two distinct account objects:
missing identifier on either side throws, then the amount is validated, then
insufficient funds throws; only after all three checks is the source debited
(TRANSFER_OUT naming the destination) and the destination credited
(TRANSFER_IN naming the source).  The aliased call transferMoney(a, a, amt)
is embedded separately as transferMoneySelf. -/
def transferMoney (fromAcct toAcct : Account) (amount : Option ℚ) (now : Int) :
    JsResult (Account × Account) :=
  if fromAcct.accountNumber = "" ∨ toAcct.accountNumber = "" then
    .thrown "Account must be available!" (fromAcct, toAcct)
  else
    match requirePositiveNumber amount "Amount" with
    | .error e => .thrown e (fromAcct, toAcct)
    | .ok amount =>
      if fromAcct.balance < amount then
        .thrown "Insufficient funds for transfer." (fromAcct, toAcct)
      else
        let from' :=
          { fromAcct with
            balance := fromAcct.balance - amount,
            transactions := fromAcct.transactions ++
              [{ type := "TRANSFER_OUT", counterparty := toAcct.accountNumber,
                 amount := amount, date := some now,
                 newBalance := fromAcct.balance - amount }] }
        let to' :=
          { toAcct with
            balance := toAcct.balance + amount,
            transactions := toAcct.transactions ++
              [{ type := "TRANSFER_IN", counterparty := fromAcct.accountNumber,
                 amount := amount, date := some now,
                 newBalance := toAcct.balance + amount }] }
        .ok (from', to')

/-- transactionService.js transferMoney evaluated under the aliasing
from = to: both parameters denote the same account object, so the statements
of the source are applied in order to the single object.  The debit and the
TRANSFER_OUT push happen first, then the credit and the TRANSFER_IN push. -/
def transferMoneySelf (account : Account) (amount : Option ℚ) (now : Int) :
    JsResult Account :=
  if account.accountNumber = "" then
    .thrown "Account must be available!" account
  else
    match requirePositiveNumber amount "Amount" with
    | .error e => .thrown e account
    | .ok amount =>
      if account.balance < amount then
        .thrown "Insufficient funds for transfer." account
      else
        let afterOut : Account :=
          { account with
            balance := account.balance - amount,
            transactions := account.transactions ++
              [{ type := "TRANSFER_OUT", counterparty := account.accountNumber,
                 amount := amount, date := some now,
                 newBalance := account.balance - amount }] }
        JsResult.ok
          { afterOut with
            balance := afterOut.balance + amount,
            transactions := afterOut.transactions ++
              [{ type := "TRANSFER_IN", counterparty := account.accountNumber,
                 amount := amount, date := some now,
                 newBalance := afterOut.balance + amount }] }

/-- Return shape of calculateSaving.  Optional fields are `none` when the
corresponding copy of the source omits them; the informational message of the
low-balance branch is recorded without its interpolated number formatting. -/
structure SavingResult where
  accountNumber : String
  balance : ℚ
  interestApplied : Option ℚ := none
  message : Option String := none
deriving DecidableEq, Repr

/-- calculateSaving of the bundled browser engine (src/unnamed/part_001,
lines 217 to 241): balance at most 500 mutates nothing and returns the
unchanged balance with an informational message; otherwise interest is
balance times 0.00167, an INTEREST record is pushed, the interest is added to
the stored balance, and the new balance is returned with interestApplied. -/
def calculateSaving (account : Account) (now : Int) : Account × SavingResult :=
  if account.balance ≤ 500 then
    (account,
     { accountNumber := account.accountNumber, balance := account.balance,
       message := some "Balance is below $500 - no interest applied." })
  else
    let interest := account.balance * (167 / 100000)
    let account' :=
      { account with
        transactions := account.transactions ++
          [{ type := "INTEREST", amount := interest, date := some now,
             newBalance := account.balance + interest }],
        balance := account.balance + interest }
    (account',
     { accountNumber := account.accountNumber,
       balance := account'.balance,
       interestApplied := some interest })

/-- calculateSaving of the modular backend copy
(src/src/services/interestService.js, lines 13 to 43): the low-balance branch
only logs to the console (no message field in the result); the high-balance
branch pushes an INTEREST record whose newBalance is balance+interest and
returns balance+interest, but never assigns to account.balance, so the stored
balance is left unchanged.  It also returns no interestApplied field. -/
def calculateSavingModular (account : Account) (now : Int) :
    Account × SavingResult :=
  if account.balance ≤ 500 then
    (account,
     { accountNumber := account.accountNumber, balance := account.balance })
  else
    let interestAmount := account.balance * (167 / 100000)
    let account' :=
      { account with
        transactions := account.transactions ++
          [{ type := "INTEREST", amount := interestAmount, date := some now,
             newBalance := account.balance + interestAmount }] }
    (account',
     { accountNumber := account.accountNumber,
       balance := account.balance + interestAmount })

/-- A date-range boundary value of retrieveTransactionsInRange, classifying
the JS argument exactly as the source does: `dateOnly y m d` stands for a
string matching the regex of four, two and two digits separated by dashes
(hence y at most 9999 and m, d at most 99), `timestamp ms` for any other
string accepted by the Date constructor with the given epoch-ms value, and
`invalid` for any other string the Date constructor rejects. -/
inductive DateBound where
  | dateOnly (y m d : Nat)
  | timestamp (ms : Int)
  | invalid (text : String)
deriving DecidableEq, Repr

/-- Options object of retrieveTransactionsInRange.  `none` in the two date
fields models a falsy value (undefined, null or the empty string), which the
source turns into a null boundary; `none` in `type` models undefined or
null. -/
structure RetrieveOptions where
  startDate : Option DateBound := none
  endDate : Option DateBound := none
  type : Option String := none
deriving DecidableEq, Repr

/-- ECMAScript MakeFullYear, applied by Date.UTC: an integer year from 0 to
99 denotes 1900 plus that year. -/
def makeFullYear (y : Int) : Int :=
  if 0 ≤ y ∧ y ≤ 99 then 1900 + y else y

/-- Days from the epoch 1970-01-01 of the proleptic Gregorian civil date
y-m-d (month 1 to 12), the standard civil-from-days inverse used to embed the
ECMAScript day-number computation; linear in d, so out-of-range day numbers
roll over exactly as in Date.UTC. -/
def daysFromCivil (y m d : Int) : Int :=
  let y' := if m ≤ 2 then y - 1 else y
  let era := y'.fdiv 400
  let yoe := y' - era * 400
  let mp := (m + 9).emod 12
  let doy := (153 * mp + 2).fdiv 5 + d - 1
  let doe := yoe * 365 + yoe.fdiv 4 - yoe.fdiv 100 + doy
  era * 146097 + doe - 719468

/-- ECMAScript Date.UTC(year, monthIndex, day, h, mi, s, ms) as an
epoch-millisecond value: the legacy two-digit-year rule is applied, the month
index is normalised into the year with floor division, and day and time
components are added linearly (out-of-range values roll over). -/
def dateUTC (year monthIndex day h mi s ms : Int) : Int :=
  let yr := makeFullYear year
  let ym := yr * 12 + monthIndex
  let y := ym.fdiv 12
  let mon := ym.emod 12
  (daysFromCivil y (mon + 1) 1 + (day - 1)) * 86400000
    + h * 3600000 + mi * 60000 + s * 1000 + ms

/-- parseBoundaryMs of retrieveTransactionsInRange: a falsy value gives a
null boundary; a date-only string resolves through Date.UTC to the start or
the end (23:59:59.999) of that day; any other string is parsed by the Date
constructor, rejecting unparsable values.  The NaN check after Date.UTC of
the source cannot fire for the bounded regex digits and is not embedded. -/
def parseBoundaryMs (value : Option DateBound) (isEndOfDay : Bool) :
    Except String (Option Int) :=
  match value with
  | none => .ok none
  | some (.dateOnly y m d) =>
    .ok (some (dateUTC y ((m : Int) - 1) d
      (if isEndOfDay then 23 else 0) (if isEndOfDay then 59 else 0)
      (if isEndOfDay then 59 else 0) (if isEndOfDay then 999 else 0)))
  | some (.timestamp ms) => .ok (some ms)
  | some (.invalid text) => .error ("Invalid date: " ++ text)

/-- Normalisation of the type filter option: undefined and null give no
filter, any other value goes through requireNonEmptyString and is
upper-cased.  This is the modular backend copy, which rejects an empty or
blank string (the bundled browser copy instead treats the empty string as no
filter). -/
def normalizeTypeFilter (type : Option String) :
    Except String (Option String) :=
  match type with
  | none => .ok none
  | some s =>
    match requireNonEmptyString (some s) "Type" with
    | .error e => .error e
    | .ok trimmed => .ok (some (jsToUpper trimmed))

/-- The filter predicate of retrieveTransactionsInRange: the upper-cased type
must match the filter when one is present, the date must parse, and the
parsed time must lie within the present bounds. -/
def keepTxn (normalizedType : Option String) (startMs endMs : Option Int)
    (t : Txn) : Bool :=
  (match normalizedType with
   | some nt => jsToUpper t.type = nt
   | none => true) &&
  (match t.date with
   | none => false
   | some time =>
     (match startMs with | some s => decide (s ≤ time) | none => true) &&
     (match endMs with | some e => decide (time ≤ e) | none => true))

/-- Millisecond key a transaction is sorted by; the sort runs after the
filter, which has removed every unparsable date, so the default for `none` is
never reached there. -/
def txnMs (t : Txn) : Int := t.date.getD 0

/-- Order produced by the descending comparator of the source, namely the
comparator on (a, b) returning the time of b minus the time of a: a precedes
b exactly when that difference is not positive. -/
def dateDescOrder (a b : Txn) : Prop := txnMs b ≤ txnMs a

instance : DecidableRel dateDescOrder := fun a b => by
  unfold dateDescOrder; infer_instance

instance : IsTotal Txn dateDescOrder :=
  ⟨fun a b => (Int.le_total (txnMs a) (txnMs b)).symm⟩

instance : IsTrans Txn dateDescOrder :=
  ⟨fun _ _ _ h1 h2 => Int.le_trans h2 h1⟩

/-- retrieveTransactionsInRange of the modular backend copy
(src/src/services/transactionService.js, lines 162 to 229): resolve both
boundaries, reject a start after the end, normalise the type filter, then
return the filtered transactions sorted by date descending.  The sort of the
source is the stable Array.prototype.sort under a consistent comparator,
embedded as the stable insertion sort under the comparator order; the
account object itself is not written (ensureTransactions is the identity
here), so the result is a fresh list. -/
def retrieveTransactionsInRange (account : Account)
    (options : RetrieveOptions) : Except String (List Txn) :=
  match parseBoundaryMs options.startDate false with
  | .error e => .error e
  | .ok startMs =>
    match parseBoundaryMs options.endDate true with
    | .error e => .error e
    | .ok endMs =>
      if (match startMs, endMs with
          | some s, some e => decide (s > e)
          | _, _ => false) then
        .error "startDate must be on/before endDate."
      else
        match normalizeTypeFilter options.type with
        | .error e => .error e
        | .ok normalizedType =>
          .ok ((account.transactions.filter
            (keepTxn normalizedType startMs endMs)).insertionSort
            dateDescOrder)

/-- Lazy default of the status field performed by the security operations: a
falsy (absent) status becomes ACTIVE. -/
def initStatus (account : Account) : Account :=
  if account.status = "" then { account with status := "ACTIVE" } else account

/-- securityService.js updateAccountStatus: default the status field, then
validate the action string; freezing without a non-blank manager id throws,
an action other than FREEZE or UNFREEZE (case-insensitive) throws; the
status is changed and a history entry appended only when the target state
differs from the current one.  The source returns the summary projection
(accountNumber, status, statusHistory) of the returned account. -/
def updateAccountStatus (account : Account) (action : Option String)
    (managerId : Option String) (now : Int) : JsResult Account :=
  let account := initStatus account
  match requireNonEmptyString action "Action" with
  | .error e => .thrown e account
  | .ok trimmedAction =>
    let normalizedAction := jsToUpper trimmedAction
    let hasManagerApproval :=
      match managerId with
      | some m => decide (jsTrim m ≠ "")
      | none => false
    if normalizedAction = "FREEZE" ∧ hasManagerApproval = false then
      .thrown "Manager approval is required to freeze an account." account
    else if normalizedAction ≠ "FREEZE" ∧ normalizedAction ≠ "UNFREEZE" then
      .thrown "Action must be \"FREEZE\" or \"UNFREEZE\"." account
    else
      let nextStatus := if normalizedAction = "FREEZE" then "FROZEN" else "ACTIVE"
      if account.status ≠ nextStatus then
        .ok { account with
              status := nextStatus,
              statusHistory := account.statusHistory ++
                [{ action := normalizedAction,
                   changedBy :=
                     if hasManagerApproval then jsTrim (managerId.getD "")
                     else "system",
                   date := some now }] }
      else .ok account

/-- securityService.js assertAccountNotFrozen: default the status field, then
throw when the account is frozen. -/
def assertAccountNotFrozen (account : Account) : JsResult Account :=
  let account := initStatus account
  if account.status = "FROZEN" then
    .thrown "Account is frozen. Transactions are not allowed." account
  else .ok account

/-- UTC calendar-day index of an epoch-millisecond value.  The source
compares the 10-character prefix of the stored ISO string with the prefix of
the current ISO timestamp; for the ISO-8601 strings the engine writes (four
digit years) that prefix is the UTC calendar date, so prefix equality is
equality of these indices on the parsed values. -/
def msDayIndex (ms : Int) : Int := ms.fdiv 86400000

/-- Sum of the amounts of the WITHDRAWAL records (OVERDRAFT_ATTEMPT records
have a different type and are not counted) dated on the same UTC calendar
day as `now`; a record whose date does not parse matches no day.  The
numeric-amount guard of the source always holds in the typed embedding. -/
def withdrawnToday (account : Account) (now : Int) : ℚ :=
  ((account.transactions.filter fun t =>
      decide (t.type = "WITHDRAWAL") &&
      (match t.date with
       | some ms => decide (msDayIndex ms = msDayIndex now)
       | none => false)).map Txn.amount).sum

/-- securityService.js withdrawalWithDailyLimit: guard against a frozen
account, validate the amount, and throw when the amount withdrawn today plus
the requested amount exceeds 500; otherwise delegate to the plain
withdrawal. -/
def withdrawalWithDailyLimit (account : Account) (amount : Option ℚ)
    (now : Int) : JsResult Account :=
  match assertAccountNotFrozen account with
  | .thrown e st => .thrown e st
  | .ok account =>
    match requirePositiveNumber amount "Withdrawal amount" with
    | .error e => .thrown e account
    | .ok amt =>
      if 500 < withdrawnToday account now + amt then
        .thrown "Daily withdrawal limit exceeded ($500 max)" account
      else withdrawal account amount now

/-- Alert emitted by checkForSuspiciousActivity, with the data interpolated
into the alert strings of the source: the amount and coarse category of a
high-value alert, the window length and reported minute span of a rapid
withdrawal alert. -/
inductive Alert where
  | highValue (amount : ℚ) (kind : String)
  | rapid (count : Nat) (minutes : Int)
deriving DecidableEq, Repr

/-- Coarse category string of a high-value alert. -/
def txnKind (t : Txn) : String :=
  if t.type = "TRANSFER_OUT" ∨ t.type = "TRANSFER_IN" then "transfer"
  else if t.type = "WITHDRAWAL" then "withdrawal"
  else if t.type = "DEPOSIT" then "deposit"
  else "transaction"

/-- One alert for every transaction with amount above 10000, in transaction
order. -/
def highValueAlerts (ts : List Txn) : List Alert :=
  (ts.filter fun t => decide (10000 < t.amount)).map
    fun t => .highValue t.amount (txnKind t)

/-- Ascending order of the small-withdrawal sort comparator (time of a minus
time of b).  A record whose date does not parse makes the JS sort order
implementation-defined (the comparator returns NaN); the embedding fixes the
default key 0 there, and the rapid-scan theorem assumes parseable dates. -/
def dateAscOrder (a b : Txn) : Prop := txnMs a ≤ txnMs b

instance : DecidableRel dateAscOrder := fun a b => by
  unfold dateAscOrder; infer_instance

instance : IsTotal Txn dateAscOrder :=
  ⟨fun a b => Int.le_total (txnMs a) (txnMs b)⟩

instance : IsTrans Txn dateAscOrder :=
  ⟨fun _ _ _ h1 h2 => Int.le_trans h1 h2⟩

/-- The WITHDRAWAL records with amount at most 500, sorted ascending by
parsed time, as built by checkForSuspiciousActivity. -/
def smallWithdrawals (account : Account) : List Txn :=
  (account.transactions.filter fun t =>
    decide (t.type = "WITHDRAWAL") && decide (t.amount ≤ 500)).insertionSort
    dateAscOrder

/-- Millisecond span between two records as JS computes it: NaN (that is,
`none`) when either date failed to parse. -/
def nanSub (a b : Option Int) : Option Int :=
  match a, b with
  | some x, some y => some (x - y)
  | _, _ => none

/-- NaN-aware comparisons of the span against the window: both are false on
NaN, exactly as in JS. -/
def nanLe (a : Option Int) (w : Int) : Bool :=
  match a with | some v => decide (v ≤ w) | none => false

def nanGt (a : Option Int) (w : Int) : Bool :=
  match a with | some v => decide (w < v) | none => false

/-- Inner loop of the rapid-withdrawal scan, for the start index i with base
time baseMs, scanning j upward from i+2: a span within the five-minute
window emits the window length j-i+1 and its span and breaks; a span beyond
the window breaks; only a NaN span (both comparisons false) moves to the
next j. -/
def rapidScanInner (small : List Txn) (baseMs : Option Int) (i j : Nat) :
    Option (Nat × Option Int) :=
  if hj : j < small.length then
    let span := nanSub (small.get ⟨j, hj⟩).date baseMs
    if nanLe span 300000 then some (j - i + 1, span)
    else if nanGt span 300000 then none
    else rapidScanInner small baseMs i (j + 1)
  else none
termination_by small.length - j

/-- Outer loop of the rapid-withdrawal scan: the first start index whose
inner scan emits stops the whole scan (the flaggedRapid flag of the
source). -/
def rapidScanOuter (small : List Txn) (i : Nat) : Option (Nat × Option Int) :=
  if hi : i < small.length then
    match rapidScanInner small (small.get ⟨i, hi⟩).date i (i + 2) with
    | some r => some r
    | none => rapidScanOuter small (i + 1)
  else none
termination_by small.length - i

/-- Math.round(span / 60000) for the millisecond spans in range: round half
toward positive infinity of the exact rational quotient. -/
def jsRoundMinutes (span : Int) : Int := (span + 30000).fdiv 60000

/-- The at most one rapid-withdrawal alert of a call, reporting the window
length and the span rounded to minutes with a floor of one minute. -/
def rapidAlert (account : Account) : List Alert :=
  match rapidScanOuter (smallWithdrawals account) 0 with
  | some (count, span) =>
    [.rapid count (max 1 (jsRoundMinutes (span.getD 0)))]
  | none => []

/-- securityService.js checkForSuspiciousActivity: the high-value alerts in
transaction order followed by the at most one rapid-withdrawal alert;
isSuspicious (the first component) holds exactly when some alert was
produced. -/
def checkForSuspiciousActivity (account : Account) : Bool × List Alert :=
  let alerts := highValueAlerts account.transactions ++ rapidAlert account
  (!alerts.isEmpty, alerts)

/-- Signed balance effect of a transaction record, the table of section 3 of
the specification: deposits, transfers in and interest add the amount,
withdrawals and transfers out subtract it, and an overdraft attempt
subtracts the penalty it carries (never its attempted amount). -/
def txnEffect (t : Txn) : ℚ :=
  if t.type = "DEPOSIT" then t.amount
  else if t.type = "WITHDRAWAL" then -t.amount
  else if t.type = "OVERDRAFT_ATTEMPT" then -t.penalty
  else if t.type = "TRANSFER_OUT" then -t.amount
  else if t.type = "TRANSFER_IN" then t.amount
  else if t.type = "INTEREST" then t.amount
  else 0

/-- Balance reached from the initial deposit by applying the signed effects
of the transaction list in append order. -/
def replay (init : ℚ) (ts : List Txn) : ℚ := init + (ts.map txnEffect).sum

/-- Every record in the list carries in newBalance the balance immediately
after its own effect, starting from bal. -/
def ledgerCoherent (bal : ℚ) : List Txn → Prop
  | [] => True
  | t :: rest => t.newBalance = bal + txnEffect t ∧
      ledgerCoherent (bal + txnEffect t) rest

/-- One engine operation applied to the tracked account: deposit, withdrawal,
a transfer with the tracked account as source or as destination against some
other account object, the aliased self-transfer, or interest accrual (the
complete bundled engine copy, whose interest accrual writes the balance
back). -/
inductive Op where
  | deposit (amount : Option ℚ)
  | withdraw (amount : Option ℚ)
  | transferTo (other : Account) (amount : Option ℚ)
  | transferFrom (other : Account) (amount : Option ℚ)
  | transferSelf (amount : Option ℚ)
  | interest

/-- State of the tracked account after one engine call at time now; a thrown
call leaves the caller with the state at the throw. -/
def applyOp (a : Account) (now : Int) : Op → Account
  | .deposit amt => (addDeposit a amt now).state
  | .withdraw amt => (withdrawal a amt now).state
  | .transferTo other amt => ((transferMoney a other amt now).state).1
  | .transferFrom other amt => ((transferMoney other a amt now).state).2
  | .transferSelf amt => (transferMoneySelf a amt now).state
  | .interest => (calculateSaving a now).1

/-- Fold of a finite operation sequence, each with its wall-clock instant,
over the tracked account. -/
def applyOps (a : Account) : List (Op × Int) → Account
  | [] => a
  | (op, now) :: rest => applyOps (applyOp a now op) rest

/-- Account as the registry creates it (accountStore.js generateBankAccount
after validation): the balance is the initial deposit and the lazy fields
are absent; names and creation timestamp are omitted because no embedded
operation reads them. -/
def freshAccount (accountNumber : String) (initialDeposit : ℚ) : Account :=
  { accountNumber := accountNumber, balance := initialDeposit }

/-- Account state after n repeated plain withdrawals of the same amount. -/
def iterWithdraw (a : Account) (amt : ℚ) (now : Int) : Nat → Account
  | 0 => a
  | n + 1 => (withdrawal (iterWithdraw a amt now n) (some amt) now).state

/-- Modelled from the claim wording of the retrieval contract: the UTC
midnight (00:00:00.000) of the civil day y-m-d, for comparison with what the
code resolves a bare date string to. -/
def utcMidnightMs (y m d : Nat) : Int := daysFromCivil y m d * 86400000

/-- The ledger invariant: the stored balance is the initial deposit plus the
signed effects of the transaction list in append order, and every record
carries the balance immediately after its own effect. -/
def LedgerInv (init : ℚ) (a : Account) : Prop :=
  a.balance = replay init a.transactions ∧ ledgerCoherent init a.transactions

/-- Concrete account used by the suspicious-activity witness: four small
withdrawals of 100 spaced one minute apart, a qualifying cluster of more
than three withdrawals within five minutes. -/
def demo10 : Account :=
  { accountNumber := "1000000010", balance := 0, status := "ACTIVE",
    transactions :=
      [{ type := "WITHDRAWAL", amount := 100, date := some 0,
         newBalance := 300 },
       { type := "WITHDRAWAL", amount := 100, date := some 60000,
         newBalance := 200 },
       { type := "WITHDRAWAL", amount := 100, date := some 120000,
         newBalance := 100 },
       { type := "WITHDRAWAL", amount := 100, date := some 180000,
         newBalance := 0 }] }

/-- Concrete account used by the retrieval witness: the dated deposit and
withdrawal of the specification example plus one record with an unparsable
date. -/
def demo5acct : Account :=
  { accountNumber := "1000000012", balance := 150,
    transactions :=
      [{ type := "DEPOSIT", amount := 200,
         date := some (utcMidnightMs 2023 11 15), newBalance := 200 },
       { type := "WITHDRAWAL", amount := 50,
         date := some (utcMidnightMs 2023 11 20), newBalance := 150 },
       { type := "DEPOSIT", amount := 10, date := none, newBalance := 160 }] }

/-- Options of the retrieval witness: the whole of November 2023, no type
filter. -/
def demo5opts : RetrieveOptions :=
  { startDate := some (DateBound.dateOnly 2023 11 1),
    endDate := some (DateBound.dateOnly 2023 11 30), type := none }

/-  ──────────────────────── Theorems ──────────────────────── -/

theorem replay_cons (init : ℚ) (t : Txn) (ts : List Txn) :
    replay init (t :: ts) = replay (init + txnEffect t) ts := by
  simp [replay]; ring

theorem replay_append_one (init : ℚ) (ts : List Txn) (t : Txn) :
    replay init (ts ++ [t]) = replay init ts + txnEffect t := by
  simp [replay]; ring

theorem ledgerCoherent_append_one (init : ℚ) (ts : List Txn) (t : Txn)
    (h : ledgerCoherent init ts)
    (ht : t.newBalance = replay init ts + txnEffect t) :
    ledgerCoherent init (ts ++ [t]) := by
  induction ts generalizing init with
  | nil =>
    refine ⟨?_, trivial⟩
    simpa [replay] using ht
  | cons x xs ih =>
    obtain ⟨h1, h2⟩ := h
    rw [replay_cons] at ht
    exact ⟨h1, ih _ h2 ht⟩

theorem ledgerInv_push (init : ℚ) (a : Account) (t : Txn) (x : ℚ)
    (h : LedgerInv init a) (hx : x = a.balance + txnEffect t)
    (ht : t.newBalance = a.balance + txnEffect t) :
    LedgerInv init
      { a with balance := x, transactions := a.transactions ++ [t] } := by
  obtain ⟨hb, hc⟩ := h
  rw [hb] at hx ht
  exact ⟨by simpa [LedgerInv, replay_append_one] using hx,
         ledgerCoherent_append_one _ _ _ hc ht⟩

theorem ledgerInv_applyOp (init : ℚ) (a : Account) (now : Int) (op : Op)
    (h : LedgerInv init a) : LedgerInv init (applyOp a now op) := by
  cases op with
  | deposit amt =>
    rcases amt with _ | v
    · simpa [applyOp, addDeposit, requirePositiveNumber, JsResult.state] using h
    · by_cases hv : v ≤ 0
      · simpa [applyOp, addDeposit, requirePositiveNumber, hv,
          JsResult.state] using h
      · simp only [applyOp, addDeposit, requirePositiveNumber, hv, if_neg,
          ite_false, JsResult.state]
        exact ledgerInv_push _ _ _ _ h (by simp [txnEffect])
          (by simp [txnEffect])
  | withdraw amt =>
    rcases amt with _ | v
    · simpa [applyOp, withdrawal, requirePositiveNumber, JsResult.state] using h
    · by_cases hv : v ≤ 0
      · simpa [applyOp, withdrawal, requirePositiveNumber, hv,
          JsResult.state] using h
      · by_cases hov : a.balance < v
        · simp only [applyOp, withdrawal, requirePositiveNumber, hv, hov,
            ite_false, ite_true, if_pos, JsResult.state]
          exact ledgerInv_push _ _ _ _ h (by simp [txnEffect]; ring)
            (by simp [txnEffect]; ring)
        · simp only [applyOp, withdrawal, requirePositiveNumber, hv, hov,
            ite_false, if_neg, JsResult.state]
          exact ledgerInv_push _ _ _ _ h (by simp [txnEffect]; ring)
            (by simp [txnEffect]; ring)
  | transferTo other amt =>
    by_cases hids : a.accountNumber = "" ∨ other.accountNumber = ""
    · simpa [applyOp, transferMoney, hids, JsResult.state] using h
    · rcases amt with _ | v
      · simpa [applyOp, transferMoney, hids, requirePositiveNumber,
          JsResult.state] using h
      · by_cases hv : v ≤ 0
        · simpa [applyOp, transferMoney, hids, requirePositiveNumber, hv,
            JsResult.state] using h
        · by_cases hbal : a.balance < v
          · simpa [applyOp, transferMoney, hids, requirePositiveNumber, hv,
              hbal, JsResult.state] using h
          · simp only [applyOp, transferMoney, hids, requirePositiveNumber,
              hv, hbal, ite_false, if_neg, JsResult.state]
            exact ledgerInv_push _ _ _ _ h (by simp [txnEffect]; ring)
              (by simp [txnEffect]; ring)
  | transferFrom other amt =>
    by_cases hids : other.accountNumber = "" ∨ a.accountNumber = ""
    · simpa [applyOp, transferMoney, hids, JsResult.state] using h
    · rcases amt with _ | v
      · simpa [applyOp, transferMoney, hids, requirePositiveNumber,
          JsResult.state] using h
      · by_cases hv : v ≤ 0
        · simpa [applyOp, transferMoney, hids, requirePositiveNumber, hv,
            JsResult.state] using h
        · by_cases hbal : other.balance < v
          · simpa [applyOp, transferMoney, hids, requirePositiveNumber, hv,
              hbal, JsResult.state] using h
          · simp only [applyOp, transferMoney, hids, requirePositiveNumber,
              hv, hbal, ite_false, if_neg, JsResult.state]
            exact ledgerInv_push _ _ _ _ h (by simp [txnEffect])
              (by simp [txnEffect])
  | transferSelf amt =>
    by_cases hid : a.accountNumber = ""
    · simpa [applyOp, transferMoneySelf, hid, JsResult.state] using h
    · rcases amt with _ | v
      · simpa [applyOp, transferMoneySelf, hid, requirePositiveNumber,
          JsResult.state] using h
      · by_cases hv : v ≤ 0
        · simpa [applyOp, transferMoneySelf, hid, requirePositiveNumber, hv,
            JsResult.state] using h
        · by_cases hbal : a.balance < v
          · simpa [applyOp, transferMoneySelf, hid, requirePositiveNumber,
              hv, hbal, JsResult.state] using h
          · simp only [applyOp, transferMoneySelf, hid, requirePositiveNumber,
              hv, hbal, ite_false, if_neg, JsResult.state]
            have hmid : LedgerInv init
                { a with
                  balance := a.balance - v,
                  transactions := a.transactions ++
                    [{ type := "TRANSFER_OUT", amount := v, date := some now,
                       newBalance := a.balance - v, penalty := 0,
                       counterparty := a.accountNumber }] } :=
              ledgerInv_push _ _ _ _ h (by simp [txnEffect]; ring)
                (by simp [txnEffect]; ring)
            exact ledgerInv_push _ _ _ _ hmid (by simp [txnEffect])
              (by simp [txnEffect])
  | interest =>
    by_cases hlow : a.balance ≤ 500
    · simpa [applyOp, calculateSaving, hlow] using h
    · simp only [applyOp, calculateSaving, hlow, ite_false, if_neg]
      exact ledgerInv_push _ _ _ _ h (by simp [txnEffect])
        (by simp [txnEffect])

theorem ledgerInv_applyOps (init : ℚ) (a : Account) (ops : List (Op × Int))
    (h : LedgerInv init a) : LedgerInv init (applyOps a ops) := by
  induction ops generalizing a with
  | nil => exact h
  | cons p rest ih =>
    obtain ⟨op, now⟩ := p
    exact ih _ (ledgerInv_applyOp _ _ _ _ h)

/-- C1: for every account created by the registry and every finite sequence
of engine operations applied to it (deposit, withdrawal, transfer in either
role including the aliased self-transfer, interest accrual by the complete
bundled engine), the balance equals the initial deposit plus the signed sum
of the transaction effects in append order, and each appended record's
newBalance equals the balance immediately after that record's effect. -/
theorem claim1_ledger_balance_invariant (num : String) (init : ℚ)
    (_hmin : 50 ≤ init) (ops : List (Op × Int)) :
    (applyOps (freshAccount num init) ops).balance
        = replay init (applyOps (freshAccount num init) ops).transactions ∧
    ledgerCoherent init (applyOps (freshAccount num init) ops).transactions := by
  have base : LedgerInv init (freshAccount num init) :=
    ⟨by simp [freshAccount, replay], trivial⟩
  exact ledgerInv_applyOps _ _ _ base

/-- Witness for C1 at a concrete run: initial deposit 100, then a deposit of
40, an overdraft attempt (withdraw 200 with only 140 available), a normal
withdrawal of 60, a self-transfer of 10 and an interest accrual attempt. -/
theorem claim1_ledger_balance_invariant_witness :
    (50 : ℚ) ≤ 100 ∧
    ((applyOps (freshAccount "1000000001" 100)
        [(Op.deposit (some 40), 0), (Op.withdraw (some 200), 60000),
         (Op.withdraw (some 60), 120000), (Op.transferSelf (some 10), 180000),
         (Op.interest, 240000)]).balance
      = replay 100 (applyOps (freshAccount "1000000001" 100)
        [(Op.deposit (some 40), 0), (Op.withdraw (some 200), 60000),
         (Op.withdraw (some 60), 120000), (Op.transferSelf (some 10), 180000),
         (Op.interest, 240000)]).transactions ∧
    ledgerCoherent 100 (applyOps (freshAccount "1000000001" 100)
        [(Op.deposit (some 40), 0), (Op.withdraw (some 200), 60000),
         (Op.withdraw (some 60), 120000), (Op.transferSelf (some 10), 180000),
         (Op.interest, 240000)]).transactions) :=
  ⟨by norm_num,
   claim1_ledger_balance_invariant "1000000001" 100 (by norm_num) _⟩

/-- C3: for every finite amount above zero exceeding the balance, withdrawal
returns successfully, decreases the balance by exactly the fixed penalty 5
(never by the attempted amount), and appends an OVERDRAFT_ATTEMPT record
carrying the attempted amount, the penalty and the resulting balance; when
the amount is within the balance it instead appends a WITHDRAWAL record and
decreases the balance by exactly the amount. -/
theorem claim3_withdrawal_overdraft (a : Account) (amt : ℚ) (now : Int)
    (hpos : 0 < amt) :
    (a.balance < amt →
      withdrawal a (some amt) now = .ok
        { a with
          balance := a.balance - 5,
          transactions := a.transactions ++
            [{ type := "OVERDRAFT_ATTEMPT", amount := amt, date := some now,
               penalty := 5, newBalance := a.balance - 5 }] }) ∧
    (amt ≤ a.balance →
      withdrawal a (some amt) now = .ok
        { a with
          balance := a.balance - amt,
          transactions := a.transactions ++
            [{ type := "WITHDRAWAL", amount := amt, date := some now,
               newBalance := a.balance - amt }] }) := by
  constructor
  · intro hov
    simp [withdrawal, requirePositiveNumber, not_le.mpr hpos, hov]
  · intro hle
    simp [withdrawal, requirePositiveNumber, not_le.mpr hpos, not_lt.mpr hle]

/-- Witness for C3, the worked example of the specification: balance 100,
attempted withdrawal 150, resulting balance 95 with the attempted amount 150
and penalty 5 on the record. -/
theorem claim3_withdrawal_overdraft_witness :
    withdrawal (freshAccount "1000000001" 100) (some 150) 0 = .ok
      { freshAccount "1000000001" 100 with
        balance := (freshAccount "1000000001" 100).balance - 5,
        transactions := (freshAccount "1000000001" 100).transactions ++
          [{ type := "OVERDRAFT_ATTEMPT", amount := 150, date := some 0,
             penalty := 5,
             newBalance := (freshAccount "1000000001" 100).balance - 5 }] } :=
  (claim3_withdrawal_overdraft (freshAccount "1000000001" 100) 150 0
    (by norm_num)).1 (by norm_num [freshAccount])

theorem iterWithdraw_balance (a : Account) (amt : ℚ) (now : Int)
    (hpos : 0 < amt) (hov : a.balance < amt) :
    ∀ n : ℕ, (iterWithdraw a amt now n).balance = a.balance - 5 * n := by
  intro n
  induction n with
  | zero => simp [iterWithdraw]
  | succ k ih =>
    have h5k : (0 : ℚ) ≤ 5 * k := by positivity
    have hov' : (iterWithdraw a amt now k).balance < amt := by
      rw [ih]; linarith
    have hstep : (withdrawal (iterWithdraw a amt now k) (some amt) now).state.balance
        = (iterWithdraw a amt now k).balance - 5 := by
      simp [withdrawal, requirePositiveNumber, not_le.mpr hpos, hov',
        JsResult.state]
    simp only [iterWithdraw, hstep, ih]
    push_cast; ring

/-- C8: for every finite amount above zero the plain withdrawal never
throws, even at zero or negative balance; any request above the balance
takes the overdraft path and lowers the balance by exactly 5, and repeating
such calls drives the balance below any bound, so the engine imposes no
lower limit on the balance. -/
theorem claim8_withdrawal_no_lower_bound (a : Account) (amt : ℚ) (now : Int)
    (hpos : 0 < amt) :
    (∃ a', withdrawal a (some amt) now = .ok a') ∧
    (a.balance < amt →
      (withdrawal a (some amt) now).state.balance = a.balance - 5) ∧
    (a.balance < amt → ∀ bound : ℚ, ∃ n : ℕ,
      (iterWithdraw a amt now n).balance < bound) := by
  refine ⟨?_, ?_, ?_⟩
  · cases hres : withdrawal a (some amt) now with
    | ok a' => exact ⟨a', rfl⟩
    | thrown e st =>
      exfalso
      by_cases hov : a.balance < amt <;>
        simp [withdrawal, requirePositiveNumber, not_le.mpr hpos, hov]
          at hres
  · intro hov
    simp [withdrawal, requirePositiveNumber, not_le.mpr hpos, hov,
      JsResult.state]
  · intro hov bound
    obtain ⟨n, hn⟩ := exists_nat_gt ((a.balance - bound) / 5)
    refine ⟨n, ?_⟩
    rw [iterWithdraw_balance a amt now hpos hov n]
    have h5 : a.balance - bound < 5 * n := by linarith
    linarith

/-- Witness for C8 at balance 0, amount 7: the overdraft path applies and
some number of repetitions drives the balance below minus 1000. -/
theorem claim8_withdrawal_no_lower_bound_witness :
    (0 : ℚ) < 7 ∧ (freshAccount "1000000002" 0).balance < 7 ∧
    ∃ n : ℕ, (iterWithdraw (freshAccount "1000000002" 0) 7 0 n).balance
      < -1000 :=
  ⟨by norm_num, by norm_num [freshAccount],
   (claim8_withdrawal_no_lower_bound (freshAccount "1000000002" 0) 7 0
     (by norm_num)).2.2 (by norm_num [freshAccount]) (-1000)⟩

/-- C9: the transfer accepts the same account as source and destination; for
an identified account and a positive amount within the balance the aliased
call succeeds, leaves the balance unchanged (debit and credit cancel), and
appends a TRANSFER_OUT and then a TRANSFER_IN record whose counterparty
fields both carry the account's own number. -/
theorem claim9_self_transfer (a : Account) (amt : ℚ) (now : Int)
    (hid : a.accountNumber ≠ "") (hpos : 0 < amt) (hbal : amt ≤ a.balance) :
    transferMoneySelf a (some amt) now = .ok
      { a with
        balance := a.balance,
        transactions := a.transactions ++
          [{ type := "TRANSFER_OUT", amount := amt, date := some now,
             newBalance := a.balance - amt, counterparty := a.accountNumber },
           { type := "TRANSFER_IN", amount := amt, date := some now,
             newBalance := a.balance, counterparty := a.accountNumber }] } := by
  have hcancel : a.balance - amt + amt = a.balance := by ring
  simp [transferMoneySelf, hid, requirePositiveNumber, not_le.mpr hpos,
    not_lt.mpr hbal, hcancel]

/-- Witness for C9: self-transfer of 25 on a fresh account with balance 100
leaves the balance at 100 and appends the two cross-referencing records. -/
theorem claim9_self_transfer_witness :
    transferMoneySelf (freshAccount "1000000003" 100) (some 25) 0 = .ok
      { freshAccount "1000000003" 100 with
        balance := (freshAccount "1000000003" 100).balance,
        transactions := (freshAccount "1000000003" 100).transactions ++
          [{ type := "TRANSFER_OUT", amount := 25, date := some 0,
             newBalance := (freshAccount "1000000003" 100).balance - 25,
             counterparty := "1000000003" },
           { type := "TRANSFER_IN", amount := 25, date := some 0,
             newBalance := (freshAccount "1000000003" 100).balance,
             counterparty := "1000000003" }] } :=
  claim9_self_transfer (freshAccount "1000000003" 100) 25 0
    (by simp [freshAccount]) (by norm_num) (by norm_num [freshAccount])

/-- C4: the transfer throws exactly when an account lacks an identifier, the
amount is non-numeric or non-positive, or the amount exceeds the source
balance (no overdraft-penalty fallback); whenever it throws, the state at
the throw is the untouched pair of accounts (validation fully precedes
mutation); on success the debit of the source and the credit of the
destination are both applied. -/
theorem claim4_transfer_validation (fromA toA : Account) (amount : Option ℚ)
    (now : Int) :
    ((∃ e st, transferMoney fromA toA amount now = .thrown e st) ↔
      (fromA.accountNumber = "" ∨ toA.accountNumber = "" ∨ amount = none ∨
       (∃ v, amount = some v ∧ v ≤ 0) ∨
       (∃ v, amount = some v ∧ fromA.balance < v))) ∧
    (∀ e st, transferMoney fromA toA amount now = .thrown e st →
      st = (fromA, toA)) ∧
    (∀ v, amount = some v → fromA.accountNumber ≠ "" →
      toA.accountNumber ≠ "" → 0 < v → v ≤ fromA.balance →
      transferMoney fromA toA amount now = .ok
        ({ fromA with
           balance := fromA.balance - v,
           transactions := fromA.transactions ++
             [{ type := "TRANSFER_OUT", counterparty := toA.accountNumber,
                amount := v, date := some now,
                newBalance := fromA.balance - v }] },
         { toA with
           balance := toA.balance + v,
           transactions := toA.transactions ++
             [{ type := "TRANSFER_IN", counterparty := fromA.accountNumber,
                amount := v, date := some now,
                newBalance := toA.balance + v }] })) := by
  by_cases h1 : fromA.accountNumber = "" ∨ toA.accountNumber = ""
  · have heval : transferMoney fromA toA amount now
        = .thrown "Account must be available!" (fromA, toA) := by
      simp [transferMoney, h1]
    refine ⟨⟨fun _ => by tauto, fun _ => ⟨_, _, heval⟩⟩, ?_, ?_⟩
    · intro e st h
      rw [heval] at h
      injection h with _ h2
      exact h2.symm
    · intro v _ hf ht _ _
      exact absurd h1 (by simp [hf, ht])
  · rcases amount with _ | v
    · have heval : transferMoney fromA toA none now
          = .thrown "Amount must be a number." (fromA, toA) := by
        simp [transferMoney, h1, requirePositiveNumber]
      refine ⟨⟨fun _ => by tauto, fun _ => ⟨_, _, heval⟩⟩, ?_, ?_⟩
      · intro e st h
        rw [heval] at h
        injection h with _ h2
        exact h2.symm
      · intro v hv
        exact absurd hv (by simp)
    · by_cases hv : v ≤ 0
      · have heval : transferMoney fromA toA (some v) now
            = .thrown "Amount must be greater than zero." (fromA, toA) := by
          simp [transferMoney, h1, requirePositiveNumber, hv]
        refine ⟨⟨fun _ => Or.inr (Or.inr (Or.inr (Or.inl ⟨v, rfl, hv⟩))),
          fun _ => ⟨_, _, heval⟩⟩, ?_, ?_⟩
        · intro e st h
          rw [heval] at h
          injection h with _ h2
          exact h2.symm
        · intro w hw _ _ hpos _
          obtain rfl : v = w := by injection hw
          exact absurd hpos (by simpa using hv)
      · by_cases hb : fromA.balance < v
        · have heval : transferMoney fromA toA (some v) now
              = .thrown "Insufficient funds for transfer." (fromA, toA) := by
            simp [transferMoney, h1, requirePositiveNumber, hv, hb]
          refine ⟨⟨fun _ => Or.inr (Or.inr (Or.inr (Or.inr ⟨v, rfl, hb⟩))),
            fun _ => ⟨_, _, heval⟩⟩, ?_, ?_⟩
          · intro e st h
            rw [heval] at h
            injection h with _ h2
            exact h2.symm
          · intro w hw _ _ _ hle
            obtain rfl : v = w := by injection hw
            exact absurd hb (by simpa using hle)
        · have heval : transferMoney fromA toA (some v) now = .ok
              ({ fromA with
                 balance := fromA.balance - v,
                 transactions := fromA.transactions ++
                   [{ type := "TRANSFER_OUT",
                      counterparty := toA.accountNumber, amount := v,
                      date := some now,
                      newBalance := fromA.balance - v }] },
               { toA with
                 balance := toA.balance + v,
                 transactions := toA.transactions ++
                   [{ type := "TRANSFER_IN",
                      counterparty := fromA.accountNumber, amount := v,
                      date := some now,
                      newBalance := toA.balance + v }] }) := by
            simp [transferMoney, h1, requirePositiveNumber, hv, hb]
          refine ⟨⟨?_, ?_⟩, ?_, ?_⟩
          · intro ⟨e, st, h⟩
            rw [heval] at h
            exact absurd h (by simp)
          · rintro (h | h | h | ⟨w, hw, hw0⟩ | ⟨w, hw, hwb⟩)
            · exact absurd (Or.inl h) h1
            · exact absurd (Or.inr h) h1
            · exact absurd h (by simp)
            · obtain rfl : v = w := by injection hw
              exact absurd hw0 hv
            · obtain rfl : v = w := by injection hw
              exact absurd hwb hb
          · intro e st h
            rw [heval] at h
            exact absurd h (by simp)
          · intro w hw _ _ _ _
            obtain rfl : v = w := by injection hw
            exact heval

/-- Witness for C4: the worked transfer of the specification, 25 between
balances 300 and 100, succeeds with both mutations applied. -/
theorem claim4_transfer_validation_witness :
    transferMoney (freshAccount "1000000005" 300)
        (freshAccount "1000000006" 100) (some 25) 0 = .ok
      ({ freshAccount "1000000005" 300 with
         balance := (freshAccount "1000000005" 300).balance - 25,
         transactions := (freshAccount "1000000005" 300).transactions ++
           [{ type := "TRANSFER_OUT", counterparty := "1000000006",
              amount := 25, date := some 0,
              newBalance := (freshAccount "1000000005" 300).balance - 25 }] },
       { freshAccount "1000000006" 100 with
         balance := (freshAccount "1000000006" 100).balance + 25,
         transactions := (freshAccount "1000000006" 100).transactions ++
           [{ type := "TRANSFER_IN", counterparty := "1000000005",
              amount := 25, date := some 0,
              newBalance := (freshAccount "1000000006" 100).balance + 25 }] }) :=
  (claim4_transfer_validation (freshAccount "1000000005" 300)
      (freshAccount "1000000006" 100) (some 25) 0).2.2 25 rfl
    (by simp [freshAccount]) (by simp [freshAccount]) (by norm_num)
    (by norm_num [freshAccount])

/-- C2 (evidence of the code bug): at balance 1000 the modular backend copy
of the interest accrual leaves the stored balance at 1000 although it
returns 1001.67 and appends an INTEREST record announcing newBalance
1001.67, and it returns neither interestApplied nor a message on the
low-balance path; the bundled engine copy of the same function does write
the balance back, as the claim describes. -/
theorem claim2_modular_interest_divergence :
    (calculateSavingModular (freshAccount "1000000004" 1000) 0).1.balance
        = 1000 ∧
    (calculateSavingModular (freshAccount "1000000004" 1000) 0).2.balance
        = 1000 + 167 / 100 ∧
    ((calculateSavingModular (freshAccount "1000000004" 1000) 0).1.transactions.map
        Txn.newBalance) = [1000 + 167 / 100] ∧
    (calculateSavingModular (freshAccount "1000000004" 1000) 0).2.interestApplied
        = none ∧
    (calculateSavingModular (freshAccount "1000000007" 400) 0).2.message
        = none ∧
    (calculateSaving (freshAccount "1000000004" 1000) 0).1.balance
        = 1000 + 167 / 100 ∧
    (calculateSaving (freshAccount "1000000007" 400) 0).2.message.isSome
        = true := by
  refine ⟨?_, ?_, ?_, ?_, ?_, ?_, ?_⟩ <;>
    norm_num [calculateSavingModular, calculateSaving, freshAccount]

theorem withdrawal_pos_no_throw (a : Account) (amt : ℚ) (now : Int)
    (hpos : 0 < amt) (e : String) (st : Account) :
    withdrawal a (some amt) now ≠ .thrown e st := by
  by_cases hov : a.balance < amt <;>
    simp [withdrawal, requirePositiveNumber, not_le.mpr hpos, hov]

/-- C6: on an active account with a valid amount, the daily-limit wrapper
throws the daily-limit error exactly when the sum of the WITHDRAWAL records
of the current UTC day plus the requested amount exceeds 500; any throw
carries the unchanged account, and otherwise the call is exactly the plain
withdrawal (which may itself take the overdraft path, the cap being checked
against the requested amount). -/
theorem claim6_daily_limit (a : Account) (amt : ℚ) (now : Int)
    (hst : a.status = "ACTIVE") (hpos : 0 < amt) :
    (withdrawalWithDailyLimit a (some amt) now
        = .thrown "Daily withdrawal limit exceeded ($500 max)" a
      ↔ 500 < withdrawnToday a now + amt) ∧
    (∀ e st, withdrawalWithDailyLimit a (some amt) now = .thrown e st →
      st = a) ∧
    (withdrawnToday a now + amt ≤ 500 →
      withdrawalWithDailyLimit a (some amt) now
        = withdrawal a (some amt) now) := by
  have hne : ¬ a.status = "" := by rw [hst]; decide
  have hnfz : ¬ a.status = "FROZEN" := by rw [hst]; decide
  have hnf : assertAccountNotFrozen a = .ok a := by
    simp [assertAccountNotFrozen, initStatus, hne, hnfz]
  by_cases hlim : 500 < withdrawnToday a now + amt
  · have heval : withdrawalWithDailyLimit a (some amt) now
        = .thrown "Daily withdrawal limit exceeded ($500 max)" a := by
      simp [withdrawalWithDailyLimit, hnf, requirePositiveNumber,
        not_le.mpr hpos, hlim]
    refine ⟨⟨fun _ => hlim, fun _ => heval⟩, ?_, ?_⟩
    · intro e st h
      rw [heval] at h
      injection h with _ h2
      exact h2.symm
    · intro hle
      exact absurd hlim (not_lt.mpr hle)
  · have heval : withdrawalWithDailyLimit a (some amt) now
        = withdrawal a (some amt) now := by
      simp [withdrawalWithDailyLimit, hnf, requirePositiveNumber,
        not_le.mpr hpos, hlim]
    refine ⟨⟨?_, fun h => absurd h hlim⟩, ?_, fun _ => heval⟩
    · intro h
      rw [heval] at h
      exact absurd h (withdrawal_pos_no_throw a amt now hpos _ _)
    · intro e st h
      rw [heval] at h
      exact absurd h (withdrawal_pos_no_throw a amt now hpos _ _)

/-- Witness for C6, the worked example of the specification: two same-day
withdrawals of 200 already recorded, a third request of 200 throws the
daily-limit error and leaves the account unchanged. -/
theorem claim6_daily_limit_witness :
    withdrawalWithDailyLimit
        { accountNumber := "1000000008", balance := 600, status := "ACTIVE",
          transactions :=
            [{ type := "WITHDRAWAL", amount := 200, date := some 0,
               newBalance := 400 },
             { type := "WITHDRAWAL", amount := 200, date := some 60000,
               newBalance := 200 }] } (some 200) 120000
      = .thrown "Daily withdrawal limit exceeded ($500 max)"
        { accountNumber := "1000000008", balance := 600, status := "ACTIVE",
          transactions :=
            [{ type := "WITHDRAWAL", amount := 200, date := some 0,
               newBalance := 400 },
             { type := "WITHDRAWAL", amount := 200, date := some 60000,
               newBalance := 200 }] } :=
  (claim6_daily_limit _ 200 120000 rfl (by norm_num)).1.mpr
    (by
      norm_num [withdrawnToday, msDayIndex,
        show Int.fdiv 0 86400000 = 0 from by decide,
        show Int.fdiv 60000 86400000 = 0 from by decide,
        show Int.fdiv 120000 86400000 = 0 from by decide])

/-- C7: with the status field present, a FREEZE request (case-insensitive,
trimmed) without a non-blank manager identifier throws the manager-approval
error carrying the unchanged account; with a manager identifier and a
current status other than FROZEN it sets the status to FROZEN and appends
exactly one history entry recording the (trimmed) manager id; and a no-op
request, FREEZE on a frozen account or UNFREEZE on an active one, returns
the account unchanged with no history entry. -/
theorem claim7_freeze_rules (a : Account) (action managerId : Option String)
    (now : Int) (hinit : a.status ≠ "") :
    (∀ s, action = some s → jsToUpper (jsTrim s) = "FREEZE" →
      (managerId = none ∨ ∃ m, managerId = some m ∧ jsTrim m = "") →
      updateAccountStatus a action managerId now
        = .thrown "Manager approval is required to freeze an account." a) ∧
    (∀ s m, action = some s → jsToUpper (jsTrim s) = "FREEZE" →
      managerId = some m → jsTrim m ≠ "" → a.status ≠ "FROZEN" →
      updateAccountStatus a action managerId now = .ok
        { a with
          status := "FROZEN",
          statusHistory := a.statusHistory ++
            [{ action := "FREEZE", changedBy := jsTrim m,
               date := some now }] }) ∧
    (∀ s m, action = some s → jsToUpper (jsTrim s) = "FREEZE" →
      managerId = some m → jsTrim m ≠ "" → a.status = "FROZEN" →
      updateAccountStatus a action managerId now = .ok a) ∧
    (∀ s, action = some s → jsToUpper (jsTrim s) = "UNFREEZE" →
      a.status = "ACTIVE" →
      updateAccountStatus a action managerId now = .ok a) := by
  refine ⟨?_, ?_, ?_, ?_⟩
  · rintro s rfl hfe (rfl | ⟨m, rfl, hm⟩)
    · have htrim : ¬ jsTrim s = "" := by
        intro h; rw [h] at hfe; exact absurd hfe (by decide)
      simp [updateAccountStatus, initStatus, hinit, requireNonEmptyString,
        htrim, hfe]
    · have htrim : ¬ jsTrim s = "" := by
        intro h; rw [h] at hfe; exact absurd hfe (by decide)
      simp [updateAccountStatus, initStatus, hinit, requireNonEmptyString,
        htrim, hfe, hm]
  · rintro s m rfl hfe rfl hm hnf
    have htrim : ¬ jsTrim s = "" := by
      intro h; rw [h] at hfe; exact absurd hfe (by decide)
    simp [updateAccountStatus, initStatus, hinit, requireNonEmptyString,
      htrim, hfe, hm, hnf]
  · rintro s m rfl hfe rfl hm hfz
    have htrim : ¬ jsTrim s = "" := by
      intro h; rw [h] at hfe; exact absurd hfe (by decide)
    simp [updateAccountStatus, initStatus, hinit, requireNonEmptyString,
      htrim, hfe, hm, hfz]
  · rintro s rfl hue hact
    have htrim : ¬ jsTrim s = "" := by
      intro h; rw [h] at hue; exact absurd hue (by decide)
    simp [updateAccountStatus, initStatus, hinit, requireNonEmptyString,
      htrim, hue, hact,
      show ("UNFREEZE" : String) ≠ "FREEZE" from by decide]

/-- Witness for C7: a freeze request spelled in lower case with no manager
identifier throws and carries the unchanged active account. -/
theorem claim7_freeze_rules_witness :
    updateAccountStatus
        { accountNumber := "1000000009", balance := 100, status := "ACTIVE" }
        (some "freeze") none 0
      = .thrown "Manager approval is required to freeze an account."
        { accountNumber := "1000000009", balance := 100, status := "ACTIVE" } :=
  (claim7_freeze_rules
      { accountNumber := "1000000009", balance := 100, status := "ACTIVE" }
      (some "freeze") none 0 (by decide)).1 "freeze" rfl (by decide)
    (Or.inl rfl)

theorem rapidScanInner_window_three (small : List Txn) (i : Nat) (b : Int)
    (c : Nat) (s : Option Int)
    (hall : ∀ t ∈ small, t.date ≠ none)
    (h : rapidScanInner small (some b) i (i + 2) = some (c, s)) : c = 3 := by
  rw [rapidScanInner] at h
  by_cases hj : i + 2 < small.length
  · rw [dif_pos hj] at h
    obtain ⟨ms, hms⟩ := Option.ne_none_iff_exists'.mp
      (hall _ (List.get_mem small (i + 2) hj))
    rw [hms] at h
    by_cases hle : ms - b ≤ 300000
    · simp [nanSub, nanLe, hle, Prod.ext_iff] at h
      omega
    · have hgt : 300000 < ms - b := lt_of_not_ge hle
      simp [nanSub, nanLe, nanGt, hle, hgt] at h
  · rw [dif_neg hj] at h
    exact absurd h (by simp)

theorem rapidScanOuter_window_three (small : List Txn)
    (hall : ∀ t ∈ small, t.date ≠ none) :
    ∀ k i c s, small.length - i = k →
      rapidScanOuter small i = some (c, s) → c = 3 := by
  intro k
  induction k with
  | zero =>
    intro i c s hk h
    rw [rapidScanOuter] at h
    rw [dif_neg (by omega)] at h
    exact absurd h (by simp)
  | succ n ih =>
    intro i c s hk h
    rw [rapidScanOuter] at h
    by_cases hi : i < small.length
    · rw [dif_pos hi] at h
      obtain ⟨b, hb⟩ := Option.ne_none_iff_exists'.mp
        (hall _ (List.get_mem small i hi))
      rw [hb] at h
      cases hinner : rapidScanInner small (some b) i (i + 2) with
      | some r =>
        rw [hinner] at h
        simp only [] at h
        have hr : r = (c, s) := Option.some.inj h
        exact rapidScanInner_window_three small i b c s hall
          (by rw [hinner, hr])
      | none =>
        rw [hinner] at h
        exact ih (i + 1) c s (by omega) h
    · rw [dif_neg hi] at h
      exact absurd h (by simp)

/-- C10: whenever the suspicious-activity scan emits a rapid-withdrawal
alert on an account whose small withdrawals carry parseable dates, the
reported transaction count is exactly 3: for each start index the scan only
examines the window ending two positions later before stopping, whether
that window is within or beyond five minutes, so larger qualifying clusters
are still reported with count 3. -/
theorem claim10_rapid_alert_count (a : Account)
    (hdates : ∀ t ∈ a.transactions, t.type = "WITHDRAWAL" →
      t.amount ≤ 500 → t.date ≠ none) :
    ∀ c m, Alert.rapid c m ∈ (checkForSuspiciousActivity a).2 → c = 3 := by
  have hsmall : ∀ t ∈ smallWithdrawals a, t.date ≠ none := by
    intro t ht
    have hperm := List.perm_insertionSort dateAscOrder
      (a.transactions.filter fun t =>
        decide (t.type = "WITHDRAWAL") && decide (t.amount ≤ 500))
    rw [smallWithdrawals] at ht
    have ht' := hperm.subset ht
    rw [List.mem_filter] at ht'
    simp only [Bool.and_eq_true, decide_eq_true_eq] at ht'
    exact hdates t ht'.1 ht'.2.1 ht'.2.2
  intro c m hmem
  simp only [checkForSuspiciousActivity, List.mem_append] at hmem
  rcases hmem with hhigh | hrap
  · exfalso
    simp only [highValueAlerts, List.mem_map] at hhigh
    obtain ⟨t, _, ht⟩ := hhigh
    exact Alert.noConfusion ht
  · rw [rapidAlert] at hrap
    cases hscan : rapidScanOuter (smallWithdrawals a) 0 with
    | none =>
      rw [hscan] at hrap
      exact absurd hrap (by simp)
    | some r =>
      obtain ⟨c', s⟩ := r
      rw [hscan] at hrap
      simp only [List.mem_singleton] at hrap
      have hc : c = c' := by
        have := congrArg (fun al => match al with
          | Alert.rapid k _ => k
          | _ => 0) hrap
        simpa using this
      rw [hc]
      exact rapidScanOuter_window_three (smallWithdrawals a) hsmall
        (smallWithdrawals a).length 0 c' s rfl hscan

/-- Witness for C10: on the four-withdrawal cluster the scan emits the alert
with count 3 (and two reported minutes), and the theorem applies. -/
theorem claim10_rapid_alert_count_witness :
    (∀ t ∈ demo10.transactions, t.type = "WITHDRAWAL" → t.amount ≤ 500 →
      t.date ≠ none) ∧
    Alert.rapid 3 2 ∈ (checkForSuspiciousActivity demo10).2 ∧ 3 = 3 :=
  ⟨by decide,
   by
    simp [checkForSuspiciousActivity, highValueAlerts, rapidAlert,
      smallWithdrawals, rapidScanOuter, rapidScanInner, demo10, nanSub,
      nanLe, nanGt, txnKind, List.insertionSort, List.orderedInsert,
      dateAscOrder, txnMs, jsRoundMinutes],
   claim10_rapid_alert_count demo10 (by decide) 3 2
     (by
      simp [checkForSuspiciousActivity, highValueAlerts, rapidAlert,
        smallWithdrawals, rapidScanOuter, rapidScanInner, demo10, nanSub,
        nanLe, nanGt, txnKind, List.insertionSort, List.orderedInsert,
        dateAscOrder, txnMs, jsRoundMinutes])⟩

theorem dateUTC_end_of_day (y mi d : Int) :
    dateUTC y mi d 23 59 59 999 = dateUTC y mi d 0 0 0 0 + 86399999 := by
  simp only [dateUTC]; ring

theorem daysFromCivil_day_shift (y m d : Int) :
    daysFromCivil y m d = daysFromCivil y m 1 + (d - 1) := by
  simp only [daysFromCivil]; ring

theorem dateUTC_civil (y m d : Nat) (hy : 100 ≤ y) (hm1 : 1 ≤ m)
    (hm2 : m ≤ 12) :
    dateUTC y ((m : Int) - 1) d 0 0 0 0 = utcMidnightMs y m d := by
  have hyi : ¬(0 ≤ (y : Int) ∧ (y : Int) ≤ 99) := by
    have : 100 ≤ (y : Int) := by exact_mod_cast hy
    omega
  have hmi1 : 1 ≤ (m : Int) := by exact_mod_cast hm1
  have hmi2 : (m : Int) ≤ 12 := by exact_mod_cast hm2
  have h12 : ((y : Int) * 12 + ((m : Int) - 1)).fdiv 12 = y := by
    rw [Int.fdiv_eq_ediv _ (by norm_num)]
    omega
  have hmod : ((y : Int) * 12 + ((m : Int) - 1)).emod 12 = (m : Int) - 1 := by
    have h1 : (y : Int) * 12 + ((m : Int) - 1) = ((m : Int) - 1) + 12 * y := by
      ring
    rw [h1]
    show ((m : Int) - 1 + 12 * (y : Int)) % 12 = (m : Int) - 1
    rw [Int.add_mul_emod_self_left]
    exact Int.emod_eq_of_lt (by omega) (by omega)
  simp only [dateUTC, makeFullYear, if_neg hyi, h12, hmod]
  have hm' : (m : Int) - 1 + 1 = m := by ring
  rw [hm', utcMidnightMs, daysFromCivil_day_shift (y : Int) (m : Int) d]
  ring

/-- The boolean filter of the retrieval, spelled out as the claim states it:
the type filter is absent or matches the upper-cased record type, the date
parses, and the parsed time lies within the present bounds. -/
theorem keepTxn_spec (nt : Option String) (startMs endMs : Option Int)
    (t : Txn) :
    keepTxn nt startMs endMs t = true ↔
      ((nt = none ∨ some (jsToUpper t.type) = nt) ∧
       ∃ ms, t.date = some ms ∧
         (∀ s, startMs = some s → s ≤ ms) ∧
         (∀ e, endMs = some e → ms ≤ e)) := by
  rcases nt with _ | ntv <;> rcases htd : t.date with _ | ms <;>
    rcases startMs with _ | s <;> rcases endMs with _ | e <;>
    simp [keepTxn, htd]

/-- C5 counterexample to the boundary-resolution sentence as stated: the
date-only string 0023-01-01 goes through Date.UTC, whose legacy rule maps
the year 23 to 1923, so a transaction dated exactly at the UTC midnight of
the civil day 0023-01-01 (which the claim puts inside the range from that
day's 00:00:00.000 to its 23:59:59.999) is not returned: the call yields the
empty list. -/
theorem claim5_retrieve_counterexample :
    retrieveTransactionsInRange
        { accountNumber := "1000000011", balance := 0,
          transactions :=
            [{ type := "DEPOSIT", amount := 10,
               date := some (utcMidnightMs 23 1 1), newBalance := 10 }] }
        { startDate := some (DateBound.dateOnly 23 1 1),
          endDate := some (DateBound.dateOnly 23 1 1), type := none }
      = .ok [] ∧
    utcMidnightMs 23 1 1 ≤ utcMidnightMs 23 1 1 ∧
    utcMidnightMs 23 1 1 ≤ utcMidnightMs 23 1 1 + 86399999 :=
  ⟨by rfl, le_refl _, by omega⟩

/-- C5 as amended: on every successful call the result contains exactly the
stored transactions that pass the type filter and whose parsed dates lie in
the resolved range (records with unparsable dates are silently excluded), as
a fresh list, a permutation of the filtered input sorted by date descending;
a bare date-only start bound resolves to the 00:00:00.000 and a date-only
end bound to the 23:59:59.999 instant of the day Date.UTC denotes, which for
years 0100 to 9999 is the named civil day (years 0000 to 0099 are shifted to
1900+year by the Date.UTC legacy rule, the sole correction the
counterexample forces). -/
theorem claim5_retrieve_amended (a : Account) (opts : RetrieveOptions)
    (res : List Txn) (startMs endMs : Option Int) (nt : Option String)
    (hs : parseBoundaryMs opts.startDate false = .ok startMs)
    (he : parseBoundaryMs opts.endDate true = .ok endMs)
    (ht : normalizeTypeFilter opts.type = .ok nt)
    (hok : retrieveTransactionsInRange a opts = .ok res) :
    (∀ t, t ∈ res ↔ t ∈ a.transactions ∧
      (nt = none ∨ some (jsToUpper t.type) = nt) ∧
      ∃ ms, t.date = some ms ∧
        (∀ s, startMs = some s → s ≤ ms) ∧
        (∀ e, endMs = some e → ms ≤ e)) ∧
    res.Perm (a.transactions.filter (keepTxn nt startMs endMs)) ∧
    List.Sorted dateDescOrder res ∧
    (∀ y m d, opts.startDate = some (DateBound.dateOnly y m d) →
      startMs = some (dateUTC y ((m : Int) - 1) d 0 0 0 0)) ∧
    (∀ y m d, opts.endDate = some (DateBound.dateOnly y m d) →
      endMs = some (dateUTC y ((m : Int) - 1) d 0 0 0 0 + 86399999)) ∧
    (∀ y m d : Nat, 100 ≤ y → 1 ≤ m → m ≤ 12 →
      dateUTC y ((m : Int) - 1) d 0 0 0 0 = utcMidnightMs y m d) := by
  have hres : res = (a.transactions.filter
      (keepTxn nt startMs endMs)).insertionSort dateDescOrder := by
    simp only [retrieveTransactionsInRange, hs, he, ht] at hok
    rcases startMs with _ | s
    · rcases endMs with _ | e <;> simpa using hok.symm
    · rcases endMs with _ | e
      · simpa using hok.symm
      · by_cases hcmp : s > e
        · simp [hcmp] at hok
        · simpa [hcmp] using hok.symm
  refine ⟨?_, ?_, ?_, ?_, ?_, ?_⟩
  · intro t
    rw [hres, (List.perm_insertionSort dateDescOrder _).mem_iff,
      List.mem_filter, keepTxn_spec]
  · rw [hres]
    exact List.perm_insertionSort dateDescOrder _
  · rw [hres]
    exact List.sorted_insertionSort dateDescOrder _
  · intro y m d hsd
    rw [hsd] at hs
    simpa [parseBoundaryMs] using hs.symm
  · intro y m d hed
    rw [hed] at he
    rw [← dateUTC_end_of_day]
    simpa [parseBoundaryMs] using he.symm
  · intro y m d hy hm1 hm2
    exact dateUTC_civil y m d hy hm1 hm2

/-- Witness for C5 at the specification example: both dated transactions of
November 2023 are returned newest first (the record with the unparsable date
is excluded), and the returned sequence is sorted by date descending. -/
theorem claim5_retrieve_amended_witness :
    List.Sorted dateDescOrder
      [{ type := "WITHDRAWAL", amount := 50,
         date := some (utcMidnightMs 2023 11 20), newBalance := 150 },
       { type := "DEPOSIT", amount := 200,
         date := some (utcMidnightMs 2023 11 15), newBalance := 200 }] :=
  (claim5_retrieve_amended demo5acct demo5opts
      [{ type := "WITHDRAWAL", amount := 50,
         date := some (utcMidnightMs 2023 11 20), newBalance := 150 },
       { type := "DEPOSIT", amount := 200,
         date := some (utcMidnightMs 2023 11 15), newBalance := 200 }]
      (some (dateUTC 2023 10 1 0 0 0 0))
      (some (dateUTC 2023 10 30 23 59 59 999)) none
      (by rfl) (by rfl) (by rfl) (by rfl)).2.2.1

end Banking
